import Mathlib

/-!
# SheenBidi codepoint-sequence layer: shallow embedding and verification

This file embeds `src/SheenBidi/Source/SBCodepointSequence.c` in Lean 4 and
proves properties of the decoder and the reference-counted lifecycle.

Modelling choices:
* `SBCodepoint` results are a tagged type `SBCodepointValue` with the two
  sentinels `invalid` and `faulty` (in C these are reserved `SBUInt32`
  values defined in a header that is outside the embedded sources; the two
  sentinels are distinct from every scalar, which the tagged type captures).
* The encoded buffer is a `List Nat` of code units; machine arithmetic that
  can wrap (the `- 0x80` continuation-byte subtraction on `SBUInt32`) is
  modelled with an explicit `% 2^32`.
* The cursor (`SBUInteger *stringIndex`) is passed and returned explicitly:
  a decode step maps `(sequence, index)` to `(codepoint, index')`.
* Handles (`SBCodepointSequenceRef`) are `Option SBCodepointSequence`:
  `none` is the null handle / freed record.
-/

namespace SheenBidi

/-- `SBEncoding`: the three supported encodings. -/
inductive SBEncoding where
  | utf8
  | utf16
  | utf32
deriving DecidableEq, Repr

/-- Result of a decode: a scalar value, or one of the two sentinels
`SBCodepointInvalid` (out of bounds) and `SBCodepointFaulty` (malformed). -/
inductive SBCodepointValue where
  | scalar (v : Nat)
  | faulty
  | invalid
deriving DecidableEq, Repr

/-- `SBCodepointSequence`: the record allocated by
`SBCodepointSequenceCreateWithEncoding`. The buffer is borrowed (here: a
list of code-unit values), `stringLength` counts code units. -/
structure SBCodepointSequence where
  encoding : SBEncoding
  stringBuffer : List Nat
  stringLength : Nat
  retainCount : Nat
deriving DecidableEq, Repr

/-- Unsigned 32-bit subtraction `a - b` (two's complement wraparound),
used for the `byteN = utf8String[...] - 0x80` continuation computations,
which in C are performed on `SBCodepoint` (`SBUInt32`). -/
def u32sub (a b : Nat) : Nat :=
  (2 ^ 32 + a - b % 2 ^ 32) % 2 ^ 32

/-- Read a code unit from the buffer (`utf8String[i]` etc.); all reads in
the C code are guarded to be in bounds, so the default is never used on a
well-formed sequence. -/
def unitAt (buf : List Nat) (i : Nat) : Nat :=
  buf.getD i 0

/-- `_SBGetUTF8CodepointAt`: decode the UTF-8 sequence starting at
`stringIndex`, returning the codepoint and the advanced index. -/
def getUTF8CodepointAt (s : SBCodepointSequence) (stringIndex : Nat) :
    SBCodepointValue × Nat :=
  let utf8String := s.stringBuffer
  let remaining := s.stringLength - stringIndex
  let header := unitAt utf8String stringIndex
  let next := stringIndex + 1
  if header < 0x80 then
    (.scalar header, next)
  else if 0xC2 ≤ header ∧ header ≤ 0xDF then
    if remaining > 1 then
      let byte1 := header &&& 0xF
      let byte2 := u32sub (unitAt utf8String next) 0x80
      if byte2 ≤ 0x3F then
        (.scalar ((byte1 <<< 6) ||| byte2), next + 1)
      else
        (.faulty, next)
    else
      (.faulty, next)
  else if 0xE0 ≤ header ∧ header ≤ 0xEF then
    if remaining > 2 then
      let byte1 := header &&& 0xF
      let byte2 := u32sub (unitAt utf8String next) 0x80
      let byte3 := u32sub (unitAt utf8String (next + 1)) 0x80
      if byte2 ≤ 0x3F ∧ byte3 ≤ 0x3F then
        let codepoint := (byte1 <<< 12) ||| (byte2 <<< 6) ||| byte3
        if codepoint > 0x0800 ∧ ¬(0xD800 ≤ codepoint ∧ codepoint ≤ 0xDFFF) then
          (.scalar codepoint, next + 2)
        else
          (.faulty, next)
      else
        (.faulty, next)
    else
      (.faulty, next)
  else if 0xF0 ≤ header ∧ header ≤ 0xF4 then
    if remaining > 3 then
      let byte1 := header &&& 0x7
      let byte2 := u32sub (unitAt utf8String next) 0x80
      let byte3 := u32sub (unitAt utf8String (next + 1)) 0x80
      let byte4 := u32sub (unitAt utf8String (next + 2)) 0x80
      if byte2 ≤ 0x3F ∧ byte3 ≤ 0x3F ∧ byte4 ≤ 0x3F then
        let codepoint := (byte1 <<< 18) ||| (byte2 <<< 12) ||| (byte3 <<< 6) ||| byte4
        if 0x10000 ≤ codepoint ∧ codepoint ≤ 0x10FFFF then
          (.scalar codepoint, next + 3)
        else
          (.faulty, next)
      else
        (.faulty, next)
    else
      (.faulty, next)
  else
    (.faulty, next)

/-- `_SBGetUTF16CodepointAt`: decode the UTF-16 unit(s) at `stringIndex`. -/
def getUTF16CodepointAt (s : SBCodepointSequence) (stringIndex : Nat) :
    SBCodepointValue × Nat :=
  let utf16String := s.stringBuffer
  let remaining := s.stringLength - stringIndex
  let header := unitAt utf16String stringIndex
  let next := stringIndex + 1
  if ¬(0xD800 ≤ header ∧ header ≤ 0xDFFF) then
    (.scalar header, next)
  else if header ≤ 0xDBFF then
    if remaining > 1 then
      let high := header
      let low := unitAt utf16String next
      if 0xDC00 ≤ low ∧ low ≤ 0xDFFF then
        (.scalar ((high <<< 10) + low - ((0xD800 <<< 10) + 0xDC00 - 0x10000)), next + 1)
      else
        (.faulty, next)
    else
      (.faulty, next)
  else
    (.faulty, next)

/-- `_SBGetUTF32CodepointAt`: decode the UTF-32 unit at `stringIndex`. -/
def getUTF32CodepointAt (s : SBCodepointSequence) (stringIndex : Nat) :
    SBCodepointValue × Nat :=
  let utf32String := s.stringBuffer
  let header := unitAt utf32String stringIndex
  let next := stringIndex + 1
  if ¬(0xD800 ≤ header ∧ header ≤ 0xDFFF) ∧ header ≤ 0x10FFFF then
    (.scalar header, next)
  else
    (.faulty, next)

/-- `SBCodepointSequenceGetCodepointAt`: bounds check, then dispatch on the
encoding. Out of bounds returns `SBCodepointInvalid` with the index
unchanged. -/
def getCodepointAt (s : SBCodepointSequence) (stringIndex : Nat) :
    SBCodepointValue × Nat :=
  if stringIndex < s.stringLength then
    match s.encoding with
    | .utf8 => getUTF8CodepointAt s stringIndex
    | .utf16 => getUTF16CodepointAt s stringIndex
    | .utf32 => getUTF32CodepointAt s stringIndex
  else
    (.invalid, stringIndex)

/-- `SBCodepointSequenceCreateWithEncoding`: a null buffer (`none`) or a
zero length yields no object; otherwise a record holding the given buffer,
length and encoding, with retain count 1. -/
def createWithEncoding (encoding : SBEncoding) (stringBuffer : Option (List Nat))
    (stringLength : Nat) : Option SBCodepointSequence :=
  match stringBuffer with
  | none => none
  | some buf =>
      if stringLength > 0 then
        some ⟨encoding, buf, stringLength, 1⟩
      else
        none

/-- `SBCodepointSequenceRetain`: increment the retain count; no-op and
return the handle unchanged when it is null. -/
def retain (handle : Option SBCodepointSequence) : Option SBCodepointSequence :=
  match handle with
  | none => none
  | some s => some { s with retainCount := s.retainCount + 1 }

/-- `SBCodepointSequenceRelease`: decrement the retain count and free the
record exactly when the decremented count reaches 0 (the C condition
`--_retainCount == 0` holds iff the old count was exactly 1); no-op on a
null handle. -/
def release (handle : Option SBCodepointSequence) : Option SBCodepointSequence :=
  match handle with
  | none => none
  | some s =>
      if s.retainCount = 1 then
        none
      else
        some { s with retainCount := s.retainCount - 1 }

/-- Code units of a buffer fit in the encoding's unit width (`SBUInt8`,
`SBUInt16`, `SBUInt32`), as the C types guarantee. -/
def unitsFit (enc : SBEncoding) (buf : List Nat) : Prop :=
  ∀ b ∈ buf, b < 2 ^ (match enc with | .utf8 => 8 | .utf16 => 16 | .utf32 => 32)

instance (enc : SBEncoding) (buf : List Nat) : Decidable (unitsFit enc buf) := by
  unfold unitsFit
  infer_instance

/-- Iterated decoding: call `getCodepointAt` repeatedly (up to `fuel`
times) while the cursor is below `stringLength`; returns the final cursor. -/
def scanFrom (s : SBCodepointSequence) : Nat → Nat → Nat
  | i, 0 => i
  | i, fuel + 1 =>
      if i < s.stringLength then
        scanFrom s (getCodepointAt s i).2 fuel
      else
        i

end SheenBidi

namespace SheenBidi

/-! ## Helper lemmas -/

/-- The wrapped `- 0x80` of a byte value is small iff the byte is a valid
UTF-8 continuation byte. -/
theorem u32sub_0x80_le_iff (b : Nat) (hb : b < 256) :
    u32sub b 0x80 ≤ 0x3F ↔ (0x80 ≤ b ∧ b ≤ 0xBF) := by
  unfold u32sub
  omega

/-- On a valid continuation byte the wrapped subtraction is plain
subtraction. -/
theorem u32sub_0x80_cont (b : Nat) (h1 : 0x80 ≤ b) (h2 : b ≤ 0xBF) :
    u32sub b 0x80 = b - 0x80 := by
  unfold u32sub
  omega

/-- Every read through `unitAt` of a buffer whose units fit the encoding
width is below that width, in particular below `2 ^ 32`. -/
theorem unitAt_lt_of_fit (enc : SBEncoding) (buf : List Nat) (hfit : unitsFit enc buf)
    (j : Nat) (w : Nat)
    (hw : 2 ^ (match enc with | .utf8 => 8 | .utf16 => 16 | .utf32 => 32) ≤ w) :
    unitAt buf j < w := by
  unfold unitAt
  by_cases hj : j < buf.length
  · have hmem : buf.getD j 0 ∈ buf := by
      rw [List.getD_eq_getElem buf 0 hj]
      exact buf.getElem_mem hj
    exact lt_of_lt_of_le (hfit _ hmem) hw
  · rw [List.getD_eq_default buf 0 (by omega)]
    have : 0 < 2 ^ (match enc with | .utf8 => 8 | .utf16 => 16 | .utf32 => 32) :=
      Nat.pos_pow_of_pos _ (by omega)
    omega

/-- In-bounds dispatch of `getCodepointAt` for UTF-8 sequences. -/
theorem getCodepointAt_utf8 (s : SBCodepointSequence) (i : Nat)
    (henc : s.encoding = .utf8) (hi : i < s.stringLength) :
    getCodepointAt s i = getUTF8CodepointAt s i := by
  unfold getCodepointAt
  rw [if_pos hi, henc]

/-- In-bounds dispatch of `getCodepointAt` for UTF-16 sequences. -/
theorem getCodepointAt_utf16 (s : SBCodepointSequence) (i : Nat)
    (henc : s.encoding = .utf16) (hi : i < s.stringLength) :
    getCodepointAt s i = getUTF16CodepointAt s i := by
  unfold getCodepointAt
  rw [if_pos hi, henc]

/-- In-bounds dispatch of `getCodepointAt` for UTF-32 sequences. -/
theorem getCodepointAt_utf32 (s : SBCodepointSequence) (i : Nat)
    (henc : s.encoding = .utf32) (hi : i < s.stringLength) :
    getCodepointAt s i = getUTF32CodepointAt s i := by
  unfold getCodepointAt
  rw [if_pos hi, henc]

/-! ## Claim theorems -/

/-- C5: for every encoding and every sequence, a decode at a cursor at or
beyond the sequence length returns the `Invalid` sentinel and leaves the
cursor unchanged. -/
theorem C5_out_of_bounds_invalid (s : SBCodepointSequence) (i : Nat)
    (hi : s.stringLength ≤ i) :
    getCodepointAt s i = (.invalid, i) := by
  unfold getCodepointAt
  rw [if_neg (by omega)]

/-- C5 witness: decoding at cursor 5 of a 1-unit sequence returns
`Invalid` and cursor 5. -/
theorem C5_out_of_bounds_invalid_witness :
    getCodepointAt ⟨.utf8, [0x41], 1, 1⟩ 5 = (.invalid, 5) :=
  C5_out_of_bounds_invalid ⟨.utf8, [0x41], 1, 1⟩ 5 (by decide)

/-- C7: under UTF-32, every in-bounds decode advances the cursor by
exactly 1 and yields the code unit itself when it is neither a surrogate
nor above 0x10FFFF, and `Faulty` otherwise. -/
theorem C7_utf32_decode (s : SBCodepointSequence) (i : Nat)
    (henc : s.encoding = .utf32) (hi : i < s.stringLength) :
    getCodepointAt s i =
      (if ¬(0xD800 ≤ unitAt s.stringBuffer i ∧ unitAt s.stringBuffer i ≤ 0xDFFF) ∧
          unitAt s.stringBuffer i ≤ 0x10FFFF then
        .scalar (unitAt s.stringBuffer i)
      else
        .faulty, i + 1) := by
  rw [getCodepointAt_utf32 s i henc hi]
  simp only [getUTF32CodepointAt]
  split_ifs
  · rfl
  · rfl

/-- C7 witness: UTF-32 unit 0x1F600 decodes to itself, cursor 0 to 1. -/
theorem C7_utf32_decode_witness :
    getCodepointAt ⟨.utf32, [0x1F600], 1, 1⟩ 0 = (.scalar 0x1F600, 1) := by
  have h := C7_utf32_decode ⟨.utf32, [0x1F600], 1, 1⟩ 0 rfl (by decide)
  simpa using h

/-- C8: for every encoding, creation with a null buffer or zero length
yields no object; otherwise the returned record stores the given buffer,
length and encoding and has retain count exactly 1. -/
theorem C8_create_fields (enc : SBEncoding) (buf : List Nat) (len : Nat) :
    createWithEncoding enc none len = none ∧
    createWithEncoding enc (some buf) 0 = none ∧
    (0 < len →
      createWithEncoding enc (some buf) len = some ⟨enc, buf, len, 1⟩) := by
  refine ⟨rfl, rfl, fun h => ?_⟩
  simp only [createWithEncoding]
  rw [if_pos h]

/-- C8 witness: creating a UTF-8 sequence over a 1-byte buffer yields a
record with that buffer, length 1, encoding UTF-8 and retain count 1. -/
theorem C8_create_fields_witness :
    createWithEncoding .utf8 (some [0x41]) 1 = some ⟨.utf8, [0x41], 1, 1⟩ :=
  (C8_create_fields .utf8 [0x41] 1).2.2 (by decide)

/-- C9: retain increments the count by 1 on the same record and is a no-op
on null; release is a no-op on null, frees exactly when the old count is 1
and otherwise just decrements; and create, retain, release leaves the
object alive with count 1. -/
theorem C9_retain_release (s : SBCodepointSequence) (enc : SBEncoding)
    (buf : List Nat) (len : Nat) :
    retain (some s) = some { s with retainCount := s.retainCount + 1 } ∧
    retain none = none ∧
    release none = none ∧
    (s.retainCount = 1 → release (some s) = none) ∧
    (1 < s.retainCount →
      release (some s) = some { s with retainCount := s.retainCount - 1 }) ∧
    (0 < len →
      release (retain (createWithEncoding enc (some buf) len)) =
        createWithEncoding enc (some buf) len) := by
  refine ⟨rfl, rfl, rfl, fun h1 => ?_, fun h2 => ?_, fun h3 => ?_⟩
  · simp only [release]
    rw [if_pos h1]
  · simp only [release]
    rw [if_neg (by omega)]
  · simp only [createWithEncoding]
    rw [if_pos h3]
    simp [retain, release]

/-- C9 witness: on a record with count 1, retain gives count 2, release
frees at count 1, and create-retain-release returns to count 1 alive. -/
theorem C9_retain_release_witness :
    retain (some ⟨.utf8, [0x41], 1, 1⟩) = some ⟨.utf8, [0x41], 1, 2⟩ ∧
    release (some ⟨.utf8, [0x41], 1, 1⟩) = none ∧
    release (retain (createWithEncoding .utf8 (some [0x41]) 1)) =
      createWithEncoding .utf8 (some [0x41]) 1 := by
  have h := C9_retain_release ⟨.utf8, [0x41], 1, 1⟩ .utf8 [0x41] 1
  exact ⟨h.1, h.2.2.2.1 rfl, h.2.2.2.2.2 (by decide)⟩

/-- C2: for a UTF-8 decode at a header in 0xC2..0xDF with at least 2 code
units remaining and a continuation byte in 0x80..0xBF, the result is
exactly ((header &&& 0xF) <<< 6) ||| (cont - 0x80) and the cursor advances
by exactly 2. -/
theorem C2_utf8_two_byte (s : SBCodepointSequence) (i : Nat)
    (henc : s.encoding = .utf8)
    (hlen : i + 2 ≤ s.stringLength)
    (hh1 : 0xC2 ≤ unitAt s.stringBuffer i) (hh2 : unitAt s.stringBuffer i ≤ 0xDF)
    (hc1 : 0x80 ≤ unitAt s.stringBuffer (i + 1))
    (hc2 : unitAt s.stringBuffer (i + 1) ≤ 0xBF) :
    getCodepointAt s i =
      (.scalar (((unitAt s.stringBuffer i &&& 0xF) <<< 6) |||
        (unitAt s.stringBuffer (i + 1) - 0x80)), i + 2) := by
  rw [getCodepointAt_utf8 s i henc (by omega)]
  simp only [getUTF8CodepointAt]
  rw [u32sub_0x80_cont _ hc1 hc2]
  rw [if_neg (by omega), if_pos ⟨hh1, hh2⟩, if_pos (by omega), if_pos (by omega)]

/-- C2 witness: the bytes [0xC2, 0xA9] decode at cursor 0 to scalar 0xA9
with the cursor advancing to 2. -/
theorem C2_utf8_two_byte_witness :
    getCodepointAt ⟨.utf8, [0xC2, 0xA9], 2, 1⟩ 0 = (.scalar 0xA9, 2) := by
  have h := C2_utf8_two_byte ⟨.utf8, [0xC2, 0xA9], 2, 1⟩ 0 rfl (by decide)
    (by decide) (by decide) (by decide) (by decide)
  rw [h]
  decide

/-- C3: for a UTF-8 decode at a header in 0xE0..0xEF with at least 3 code
units remaining and both continuation bytes in 0x80..0xBF, the assembled
value is returned with the cursor advanced by 3, unless it is at most
0x0800 or a surrogate, in which case the result is Faulty with the cursor
advanced by 1. -/
theorem C3_utf8_three_byte (s : SBCodepointSequence) (i : Nat)
    (henc : s.encoding = .utf8)
    (hlen : i + 3 ≤ s.stringLength)
    (hh1 : 0xE0 ≤ unitAt s.stringBuffer i) (hh2 : unitAt s.stringBuffer i ≤ 0xEF)
    (hc1 : 0x80 ≤ unitAt s.stringBuffer (i + 1))
    (hc2 : unitAt s.stringBuffer (i + 1) ≤ 0xBF)
    (hd1 : 0x80 ≤ unitAt s.stringBuffer (i + 2))
    (hd2 : unitAt s.stringBuffer (i + 2) ≤ 0xBF) :
    getCodepointAt s i =
      (if ((unitAt s.stringBuffer i &&& 0xF) <<< 12) |||
            ((unitAt s.stringBuffer (i + 1) - 0x80) <<< 6) |||
            (unitAt s.stringBuffer (i + 2) - 0x80) ≤ 0x0800 ∨
          (0xD800 ≤ ((unitAt s.stringBuffer i &&& 0xF) <<< 12) |||
              ((unitAt s.stringBuffer (i + 1) - 0x80) <<< 6) |||
              (unitAt s.stringBuffer (i + 2) - 0x80) ∧
            ((unitAt s.stringBuffer i &&& 0xF) <<< 12) |||
              ((unitAt s.stringBuffer (i + 1) - 0x80) <<< 6) |||
              (unitAt s.stringBuffer (i + 2) - 0x80) ≤ 0xDFFF) then
        (.faulty, i + 1)
      else
        (.scalar (((unitAt s.stringBuffer i &&& 0xF) <<< 12) |||
          ((unitAt s.stringBuffer (i + 1) - 0x80) <<< 6) |||
          (unitAt s.stringBuffer (i + 2) - 0x80)), i + 3)) := by
  rw [getCodepointAt_utf8 s i henc (by omega)]
  simp only [getUTF8CodepointAt]
  rw [u32sub_0x80_cont _ hc1 hc2, u32sub_0x80_cont _ hd1 hd2]
  rw [if_neg (by omega), if_neg (by omega), if_pos ⟨hh1, hh2⟩, if_pos (by omega),
    if_pos ⟨by omega, by omega⟩]
  split_ifs
  all_goals first | rfl | (exfalso ; omega)

/-- C3 witness: the bytes [0xE2, 0x82, 0xAC] (euro sign) decode at cursor
0 to scalar 0x20AC with the cursor advancing to 3. -/
theorem C3_utf8_three_byte_witness :
    getCodepointAt ⟨.utf8, [0xE2, 0x82, 0xAC], 3, 1⟩ 0 = (.scalar 0x20AC, 3) := by
  have h := C3_utf8_three_byte ⟨.utf8, [0xE2, 0x82, 0xAC], 3, 1⟩ 0 rfl (by decide)
    (by decide) (by decide) (by decide) (by decide) (by decide) (by decide)
  rw [h]
  decide

/-- C4: a UTF-8 decode at a header outside the recognized ranges, or with
a failing continuation byte, or with fewer code units remaining than the
form requires, returns Faulty and advances the cursor by exactly 1. -/
theorem C4_utf8_faulty_resync (s : SBCodepointSequence) (i : Nat)
    (henc : s.encoding = .utf8)
    (hfit : unitsFit .utf8 s.stringBuffer)
    (hi : i < s.stringLength)
    (hbad :
      (0x80 ≤ unitAt s.stringBuffer i ∧ unitAt s.stringBuffer i ≤ 0xC1) ∨
      (0xF5 ≤ unitAt s.stringBuffer i ∧ unitAt s.stringBuffer i ≤ 0xFF) ∨
      (0xC2 ≤ unitAt s.stringBuffer i ∧ unitAt s.stringBuffer i ≤ 0xDF ∧
        (s.stringLength ≤ i + 1 ∨
          ¬(0x80 ≤ unitAt s.stringBuffer (i + 1) ∧
            unitAt s.stringBuffer (i + 1) ≤ 0xBF))) ∨
      (0xE0 ≤ unitAt s.stringBuffer i ∧ unitAt s.stringBuffer i ≤ 0xEF ∧
        (s.stringLength ≤ i + 2 ∨
          ¬(0x80 ≤ unitAt s.stringBuffer (i + 1) ∧
            unitAt s.stringBuffer (i + 1) ≤ 0xBF) ∨
          ¬(0x80 ≤ unitAt s.stringBuffer (i + 2) ∧
            unitAt s.stringBuffer (i + 2) ≤ 0xBF))) ∨
      (0xF0 ≤ unitAt s.stringBuffer i ∧ unitAt s.stringBuffer i ≤ 0xF4 ∧
        (s.stringLength ≤ i + 3 ∨
          ¬(0x80 ≤ unitAt s.stringBuffer (i + 1) ∧
            unitAt s.stringBuffer (i + 1) ≤ 0xBF) ∨
          ¬(0x80 ≤ unitAt s.stringBuffer (i + 2) ∧
            unitAt s.stringBuffer (i + 2) ≤ 0xBF) ∨
          ¬(0x80 ≤ unitAt s.stringBuffer (i + 3) ∧
            unitAt s.stringBuffer (i + 3) ≤ 0xBF)))) :
    getCodepointAt s i = (.faulty, i + 1) := by
  have hb1 := unitAt_lt_of_fit .utf8 s.stringBuffer hfit (i + 1) 256 (by norm_num)
  have hb2 := unitAt_lt_of_fit .utf8 s.stringBuffer hfit (i + 2) 256 (by norm_num)
  have hb3 := unitAt_lt_of_fit .utf8 s.stringBuffer hfit (i + 3) 256 (by norm_num)
  rw [getCodepointAt_utf8 s i henc hi]
  simp only [getUTF8CodepointAt]
  simp only [u32sub_0x80_le_iff _ hb1, u32sub_0x80_le_iff _ hb2, u32sub_0x80_le_iff _ hb3]
  split_ifs
  all_goals first | rfl | (exfalso ; omega)

/-- C4 witness: the overlong-null bytes [0xC0, 0x80] decode at cursor 0 to
Faulty with the cursor advancing to 1. -/
theorem C4_utf8_faulty_resync_witness :
    getCodepointAt ⟨.utf8, [0xC0, 0x80], 2, 1⟩ 0 = (.faulty, 1) :=
  C4_utf8_faulty_resync ⟨.utf8, [0xC0, 0x80], 2, 1⟩ 0 rfl (by decide) (by decide)
    (Or.inl (by decide))

/-- C1: refuted by evaluation of the embedded decoder. The bytes
[0xD0, 0x90] are a legal 2-byte UTF-8 sequence for the scalar 0x410, yet
the decoder returns the scalar 0x10 (the header mask 0xF drops bit 4 of
the payload that the 110xxxxx form carries); and the bytes
[0xE0, 0xA0, 0x80] are the legal, minimal 3-byte sequence for the scalar
0x800, yet the decoder returns Faulty (the overlong check rejects values
equal to 0x800 instead of only those below it). -/
theorem C1_legal_decode_refuted :
    getCodepointAt ⟨.utf8, [0xD0, 0x90], 2, 1⟩ 0 = (.scalar 0x10, 2) ∧
    SBCodepointValue.scalar 0x10 ≠ SBCodepointValue.scalar 0x410 ∧
    getCodepointAt ⟨.utf8, [0xE0, 0xA0, 0x80], 3, 1⟩ 0 = (.faulty, 1) := by
  refine ⟨by decide, by decide, by decide⟩

/-- C6: under UTF-16 at an in-bounds cursor, a unit outside the surrogate
range decodes to itself advancing by 1; a high surrogate followed by a
low surrogate decodes to the surrogate-pair combination, a scalar in
0x10000..0x10FFFF, advancing by 2; and an unpaired low surrogate, a high
surrogate not followed by a low surrogate, or a trailing high surrogate
give Faulty advancing by 1. -/
theorem C6_utf16_decode (s : SBCodepointSequence) (i : Nat)
    (henc : s.encoding = .utf16) (hi : i < s.stringLength) :
    (¬(0xD800 ≤ unitAt s.stringBuffer i ∧ unitAt s.stringBuffer i ≤ 0xDFFF) →
      getCodepointAt s i = (.scalar (unitAt s.stringBuffer i), i + 1)) ∧
    (0xD800 ≤ unitAt s.stringBuffer i → unitAt s.stringBuffer i ≤ 0xDBFF →
      i + 2 ≤ s.stringLength →
      0xDC00 ≤ unitAt s.stringBuffer (i + 1) →
      unitAt s.stringBuffer (i + 1) ≤ 0xDFFF →
      getCodepointAt s i =
        (.scalar (0x10000 + (unitAt s.stringBuffer i - 0xD800) * 0x400 +
          (unitAt s.stringBuffer (i + 1) - 0xDC00)), i + 2) ∧
      0x10000 ≤ 0x10000 + (unitAt s.stringBuffer i - 0xD800) * 0x400 +
          (unitAt s.stringBuffer (i + 1) - 0xDC00) ∧
      0x10000 + (unitAt s.stringBuffer i - 0xD800) * 0x400 +
          (unitAt s.stringBuffer (i + 1) - 0xDC00) ≤ 0x10FFFF) ∧
    ((0xDC00 ≤ unitAt s.stringBuffer i ∧ unitAt s.stringBuffer i ≤ 0xDFFF) ∨
      (0xD800 ≤ unitAt s.stringBuffer i ∧ unitAt s.stringBuffer i ≤ 0xDBFF ∧
        (s.stringLength ≤ i + 1 ∨
          ¬(0xDC00 ≤ unitAt s.stringBuffer (i + 1) ∧
            unitAt s.stringBuffer (i + 1) ≤ 0xDFFF))) →
      getCodepointAt s i = (.faulty, i + 1)) := by
  refine ⟨fun h => ?_, fun h1 h2 h3 h4 h5 => ?_, fun hbad => ?_⟩
  · rw [getCodepointAt_utf16 s i henc hi]
    simp only [getUTF16CodepointAt]
    rw [if_pos h]
  · rw [getCodepointAt_utf16 s i henc hi]
    simp only [getUTF16CodepointAt]
    rw [if_neg (by omega), if_pos h2, if_pos (by omega), if_pos ⟨h4, h5⟩]
    refine ⟨?_, by omega, by omega⟩
    simp only [Prod.mk.injEq, SBCodepointValue.scalar.injEq, Nat.shiftLeft_eq]
    norm_num
    omega
  · rw [getCodepointAt_utf16 s i henc hi]
    simp only [getUTF16CodepointAt]
    split_ifs
    all_goals first | rfl | (exfalso ; omega)

/-- C6 witness: the surrogate pair [0xD83D, 0xDE00] decodes at cursor 0
to scalar 0x1F600 with the cursor advancing to 2. -/
theorem C6_utf16_decode_witness :
    getCodepointAt ⟨.utf16, [0xD83D, 0xDE00], 2, 1⟩ 0 = (.scalar 0x1F600, 2) := by
  have h := (C6_utf16_decode ⟨.utf16, [0xD83D, 0xDE00], 2, 1⟩ 0 rfl (by decide)).2.1
    (by decide) (by decide) (by decide) (by decide) (by decide)
  rw [h.1]
  decide

/-- Every in-bounds UTF-8 decode step advances the cursor by at least 1. -/
theorem getUTF8CodepointAt_advance (s : SBCodepointSequence) (i : Nat) :
    i + 1 ≤ (getUTF8CodepointAt s i).2 := by
  simp only [getUTF8CodepointAt]
  split_ifs
  all_goals simp only
  all_goals omega

/-- Every in-bounds UTF-16 decode step advances the cursor by at least 1. -/
theorem getUTF16CodepointAt_advance (s : SBCodepointSequence) (i : Nat) :
    i + 1 ≤ (getUTF16CodepointAt s i).2 := by
  simp only [getUTF16CodepointAt]
  split_ifs
  all_goals simp only
  all_goals omega

/-- Every in-bounds UTF-32 decode step advances the cursor by at least 1. -/
theorem getUTF32CodepointAt_advance (s : SBCodepointSequence) (i : Nat) :
    i + 1 ≤ (getUTF32CodepointAt s i).2 := by
  simp only [getUTF32CodepointAt]
  split_ifs
  all_goals simp only
  all_goals omega

/-- Every in-bounds decode advances the cursor by at least 1, for every
encoding. -/
theorem getCodepointAt_advance (s : SBCodepointSequence) (i : Nat)
    (hi : i < s.stringLength) : i + 1 ≤ (getCodepointAt s i).2 := by
  cases henc : s.encoding with
  | utf8 =>
      rw [getCodepointAt_utf8 s i henc hi]
      exact getUTF8CodepointAt_advance s i
  | utf16 =>
      rw [getCodepointAt_utf16 s i henc hi]
      exact getUTF16CodepointAt_advance s i
  | utf32 =>
      rw [getCodepointAt_utf32 s i henc hi]
      exact getUTF32CodepointAt_advance s i

/-- With enough fuel, iterated decoding drives the cursor to at least the
sequence length. -/
theorem scanFrom_ge (s : SBCodepointSequence) :
    ∀ fuel i, s.stringLength ≤ i + fuel → s.stringLength ≤ scanFrom s i fuel := by
  intro fuel
  induction fuel with
  | zero =>
      intro i h
      simp only [scanFrom]
      omega
  | succ n ih =>
      intro i h
      simp only [scanFrom]
      split_ifs with hc
      · exact ih _ (by have := getCodepointAt_advance s i hc; omega)
      · omega

/-- C10: every in-bounds decode strictly advances the cursor, and
repeatedly decoding from cursor 0 reaches the end of the buffer after at
most length calls, however malformed the data. -/
theorem C10_progress_termination (s : SBCodepointSequence) (i : Nat) :
    (i < s.stringLength → i + 1 ≤ (getCodepointAt s i).2) ∧
    s.stringLength ≤ scanFrom s 0 s.stringLength :=
  ⟨fun hi => getCodepointAt_advance s i hi, scanFrom_ge s s.stringLength 0 (by omega)⟩

/-- C10 witness: on a 3-byte buffer of malformed UTF-8, the first decode
advances the cursor and 3 decode steps starting at 0 reach the end. -/
theorem C10_progress_termination_witness :
    0 + 1 ≤ (getCodepointAt ⟨.utf8, [0xC0, 0x80, 0xFF], 3, 1⟩ 0).2 ∧
    (3 : Nat) ≤ scanFrom ⟨.utf8, [0xC0, 0x80, 0xFF], 3, 1⟩ 0 3 := by
  have h := C10_progress_termination ⟨.utf8, [0xC0, 0x80, 0xFF], 3, 1⟩ 0
  exact ⟨h.1 (by decide), h.2⟩

end SheenBidi
